import Mathlib

/-!
# Verification of `non_partitioned_table_analysis_job.go`

Shallow embedding of the analysis-job component of the auto-analyze
priority queue (package `priorityqueue`). External collaborators are
modelled as explicit parameters:

* `exec.AutoAnalyze` becomes an oracle `autoAnalyze : ExecCall → Bool`
  deciding the outcome of each analyze statement; the statements the job
  attempts are collected as an ordered trace of `ExecCall`s.
* `statsutil.CallWithSCtx` / the session pool becomes
  `acquireSession : Except String SessionCtx`; an `error` value means
  session acquisition failed (the closure never runs), an `ok` value
  carries the session context.
* the eligibility oracle `isValidToAnalyze` becomes a parameter
  `String → String → Bool × String` keyed by (schema, table).
* hooks (`JobHook`) are modelled by their registration state
  (`Option Unit`); invocations are reported as an ordered trace of
  `HookEvent`s.
* Go `float64` fields carry no arithmetic in this file and are modelled
  as `Rat`; `time.Duration` is its underlying `int64` nanosecond count,
  modelled as `Int`.
-/

namespace PriorityQueue

/-- The Go `analyzeType` string constants `analyzeTable` / `analyzeIndex`. -/
inductive analyzeType where
  | analyzeTable : analyzeType
  | analyzeIndex : analyzeType
deriving DecidableEq, Repr

/-- Go `Indicators` (embedded struct): staleness indicators snapshot. -/
structure Indicators where
  ChangePercentage : Rat
  TableSize : Rat
  LastAnalysisDuration : Int
deriving DecidableEq, Repr

/-- Session variables; only `AnalyzeVersion` is read by this component. -/
structure SessionVars where
  AnalyzeVersion : Int
deriving DecidableEq, Repr

/-- A session context obtained from the pool (`sessionctx.Context`). -/
structure SessionCtx where
  sessionVars : SessionVars
deriving DecidableEq, Repr

/-- Go `sctx.GetSessionVars()`. -/
def SessionCtx.GetSessionVars (sctx : SessionCtx) : SessionVars :=
  sctx.sessionVars

/-- One call to `exec.AutoAnalyze`: the SQL template and its ordered
parameter list (all parameters in this file are identifier strings). -/
structure ExecCall where
  sql : String
  params : List String
deriving DecidableEq, Repr

/-- A hook invocation observed during execution. -/
inductive HookEvent where
  | success : HookEvent
  | failure : HookEvent
deriving DecidableEq, Repr

/-- Go `NonPartitionedTableAnalysisJob`. The two `JobHook` function fields
are modelled by their registration state: `none` is Go `nil`. -/
structure NonPartitionedTableAnalysisJob where
  successHook : Option Unit
  failureHook : Option Unit
  TableSchema : String
  TableName : String
  Indexes : List String
  indicators : Indicators
  TableID : Int
  TableStatsVer : Int
  Weight : Rat
deriving DecidableEq, Repr

/-- Go `NewNonPartitionedTableAnalysisJob`: the constructor; fields not
listed in the Go composite literal get Go zero values (`nil` hooks,
zero weight). -/
def NewNonPartitionedTableAnalysisJob
    (schema tableName : String)
    (tableID : Int)
    (indexes : List String)
    (tableStatsVer : Int)
    (changePercentage : Rat)
    (tableSize : Rat)
    (lastAnalysisDuration : Int) :
    NonPartitionedTableAnalysisJob :=
  { successHook := none
    failureHook := none
    TableSchema := schema
    TableName := tableName
    TableID := tableID
    Indexes := indexes
    TableStatsVer := tableStatsVer
    indicators :=
      { ChangePercentage := changePercentage
        TableSize := tableSize
        LastAnalysisDuration := lastAnalysisDuration }
    Weight := 0 }

namespace NonPartitionedTableAnalysisJob

/-- Go `GetTableID`. -/
def GetTableID (j : NonPartitionedTableAnalysisJob) : Int :=
  j.TableID

/-- Go `RegisterSuccessHook`: store the callback (functional update). -/
def RegisterSuccessHook (j : NonPartitionedTableAnalysisJob) (hook : Unit) :
    NonPartitionedTableAnalysisJob :=
  { j with successHook := some hook }

/-- Go `RegisterFailureHook`: store the callback (functional update). -/
def RegisterFailureHook (j : NonPartitionedTableAnalysisJob) (hook : Unit) :
    NonPartitionedTableAnalysisJob :=
  { j with failureHook := some hook }

/-- Go `HasNewlyAddedIndex`: `len(j.Indexes) > 0`. -/
def HasNewlyAddedIndex (j : NonPartitionedTableAnalysisJob) : Bool :=
  j.Indexes.length > 0

/-- Go `SetWeight` (functional update). -/
def SetWeight (j : NonPartitionedTableAnalysisJob) (weight : Rat) :
    NonPartitionedTableAnalysisJob :=
  { j with Weight := weight }

/-- Go `GetWeight`. -/
def GetWeight (j : NonPartitionedTableAnalysisJob) : Rat :=
  j.Weight

/-- Go `GetIndicators`. -/
def GetIndicators (j : NonPartitionedTableAnalysisJob) : Indicators :=
  j.indicators

/-- Go `SetIndicators` (functional update). -/
def SetIndicators (j : NonPartitionedTableAnalysisJob) (indicators : Indicators) :
    NonPartitionedTableAnalysisJob :=
  { j with indicators := indicators }

/-- Go `getAnalyzeType`. -/
def getAnalyzeType (j : NonPartitionedTableAnalysisJob) : analyzeType :=
  if j.HasNewlyAddedIndex then
    analyzeType.analyzeIndex
  else
    analyzeType.analyzeTable

/-- Go `GenSQLForAnalyzeTable`: template plus ordered parameter list. -/
def GenSQLForAnalyzeTable (j : NonPartitionedTableAnalysisJob) :
    String × List String :=
  ("analyze table %n.%n", [j.TableSchema, j.TableName])

/-- Go `GenSQLForAnalyzeIndex`: template plus ordered parameter list. -/
def GenSQLForAnalyzeIndex (j : NonPartitionedTableAnalysisJob) (index : String) :
    String × List String :=
  ("analyze table %n.%n index %n", [j.TableSchema, j.TableName, index])

/-- Go `analyzeTable`: build the table SQL and delegate one call to
`exec.AutoAnalyze`; returns the boolean outcome and the call trace. -/
def analyzeTable (j : NonPartitionedTableAnalysisJob)
    (autoAnalyze : ExecCall → Bool) : Bool × List ExecCall :=
  let p := j.GenSQLForAnalyzeTable
  (autoAnalyze ⟨p.1, p.2⟩, [⟨p.1, p.2⟩])

/-- The version-1 `for` loop of `analyzeIndexes`: analyze each index in
order, returning `false` and stopping on the first failing statement. -/
def analyzeIndexesVersion1 (j : NonPartitionedTableAnalysisJob)
    (autoAnalyze : ExecCall → Bool) :
    List String → Bool × List ExecCall
  | [] => (true, [])
  | index :: rest =>
      let p := j.GenSQLForAnalyzeIndex index
      if autoAnalyze ⟨p.1, p.2⟩ then
        let r := analyzeIndexesVersion1 j autoAnalyze rest
        (r.1, ⟨p.1, p.2⟩ :: r.2)
      else
        (false, [⟨p.1, p.2⟩])

/-- Go `analyzeIndexes`. `none` models the Go runtime panic that the
unguarded read `j.Indexes[0]` would raise on an empty slice; `some`
carries the boolean outcome and the ordered trace of attempted
statements. -/
def analyzeIndexes (j : NonPartitionedTableAnalysisJob) (sctx : SessionCtx)
    (autoAnalyze : ExecCall → Bool) : Option (Bool × List ExecCall) :=
  if j.Indexes.length = 0 then
    some (true, [])
  else if sctx.GetSessionVars.AnalyzeVersion = 1 then
    some (analyzeIndexesVersion1 j autoAnalyze j.Indexes)
  else
    match j.Indexes[0]? with
    | none => none
    | some firstIndex =>
        let p := j.GenSQLForAnalyzeIndex firstIndex
        some (autoAnalyze ⟨p.1, p.2⟩, [⟨p.1, p.2⟩])

/-- The deferred block at the top of `Analyze`: fire `successHook` when
the flag is still true (if registered), else `failureHook` (if
registered). -/
def firedHooks (j : NonPartitionedTableAnalysisJob) (success : Bool) :
    List HookEvent :=
  if success then
    match j.successHook with
    | some _ => [HookEvent.success]
    | none => []
  else
    match j.failureHook with
    | some _ => [HookEvent.failure]
    | none => []

end NonPartitionedTableAnalysisJob

/-- Observable outcome of one `Analyze` call: the returned error, the
final value of the local `success` flag, the hook invocations, and the
`exec.AutoAnalyze` calls, both in order. -/
structure AnalyzeResult where
  err : Option String
  success : Bool
  events : List HookEvent
  calls : List ExecCall
deriving DecidableEq, Repr

/-- Modelled from the spec: the session-pool collaborator
`statsutil.CallWithSCtx` (its source lies outside this tree). Scoped
acquisition of a session context: when acquisition fails, its error is
returned and the closure never runs; otherwise the closure runs and its
own error is returned. The closure's captured mutable state (the
`success` flag and, in this embedding, the statement trace) is threaded
explicitly. -/
def CallWithSCtx (acquireSession : Except String SessionCtx)
    (initial : Bool × List ExecCall)
    (f : SessionCtx → Bool × List ExecCall →
      (Bool × List ExecCall) × Option String) :
    (Bool × List ExecCall) × Option String :=
  match acquireSession with
  | Except.error e => (initial, some e)
  | Except.ok sctx => f sctx initial

namespace NonPartitionedTableAnalysisJob

/-- Go `Analyze`: set the `success` flag to true, register the deferred
hook firing, run the body under `CallWithSCtx`; the closure switches on
`getAnalyzeType`, stores the branch outcome in the flag, and returns
`nil`. The `analyzeIndexes` panic case leaves the flag at its captured
value and is marked by a distinguished error; the deferred block fires
on that path too. -/
def Analyze (j : NonPartitionedTableAnalysisJob)
    (acquireSession : Except String SessionCtx)
    (autoAnalyze : ExecCall → Bool) : AnalyzeResult :=
  let res := CallWithSCtx acquireSession (true, []) (fun sctx s =>
    match j.getAnalyzeType with
    | analyzeType.analyzeTable =>
        let r := j.analyzeTable autoAnalyze
        ((r.1, r.2), none)
    | analyzeType.analyzeIndex =>
        match j.analyzeIndexes sctx autoAnalyze with
        | some r => ((r.1, r.2), none)
        | none => ((s.1, s.2), some "panic: index out of range"))
  { err := res.2, success := res.1.1,
    events := j.firedHooks res.1.1, calls := res.1.2 }

/-- Go `IsValidToAnalyze`: delegate to the external eligibility oracle,
firing the failure hook (if registered) on a negative result. Returns
the `(bool, reason)` pair together with the hook-invocation trace. -/
def IsValidToAnalyze (j : NonPartitionedTableAnalysisJob)
    (isValidToAnalyzeOracle : String → String → Bool × String) :
    (Bool × String) × List HookEvent :=
  let r := isValidToAnalyzeOracle j.TableSchema j.TableName
  if r.1 then
    ((true, ""), [])
  else
    ((false, r.2),
      match j.failureHook with
      | some _ => [HookEvent.failure]
      | none => [])

/-- The `ExecCall` that `analyzeIndexes` issues for one index. -/
def idxCall (j : NonPartitionedTableAnalysisJob) (index : String) : ExecCall :=
  ⟨(j.GenSQLForAnalyzeIndex index).1, (j.GenSQLForAnalyzeIndex index).2⟩

end NonPartitionedTableAnalysisJob

/-- Counts occurrences of the two-character marker `%n` in a character
list. -/
def countPlaceholdersAux : List Char → Nat
  | [] => 0
  | '%' :: 'n' :: rest => countPlaceholdersAux rest + 1
  | _ :: rest => countPlaceholdersAux rest

/-- Number of `%n` identifier placeholders in a SQL template, stated
from the spec's words for comparison against the generated parameter
lists. -/
def countIdentPlaceholders (s : String) : Nat :=
  countPlaceholdersAux s.toList

open NonPartitionedTableAnalysisJob

/-- A concrete job with three newly added indexes, used by witnesses. -/
def jobABC : NonPartitionedTableAnalysisJob :=
  NewNonPartitionedTableAnalysisJob "db" "t" 1 ["A", "B", "C"] 2 0 0 0

/-- A concrete job with no newly added indexes, used by witnesses. -/
def jobEmpty : NonPartitionedTableAnalysisJob :=
  NewNonPartitionedTableAnalysisJob "db" "t" 1 [] 2 0 0 0

/-- Go `jobABC` with both hooks registered, used by witnesses. -/
def jobHooked : NonPartitionedTableAnalysisJob :=
  (jobABC.RegisterSuccessHook ()).RegisterFailureHook ()

/-- An execution oracle failing exactly the statement for index `B`. -/
def runFailB : ExecCall → Bool :=
  fun c => decide (c.params ≠ ["db", "t", "B"])

/-- Helper: one unfolding step of the version-1 loop. -/
theorem analyzeIndexesVersion1_cons (j : NonPartitionedTableAnalysisJob)
    (autoAnalyze : ExecCall → Bool) (a : String) (rest : List String) :
    j.analyzeIndexesVersion1 autoAnalyze (a :: rest) =
      (if autoAnalyze (j.idxCall a) then
        ((j.analyzeIndexesVersion1 autoAnalyze rest).1,
          j.idxCall a :: (j.analyzeIndexesVersion1 autoAnalyze rest).2)
      else
        (false, [j.idxCall a])) :=
  rfl

/-- Helper: the version-1 loop when every statement succeeds analyzes
every index in order and reports success. -/
theorem analyzeIndexesVersion1_all_ok (j : NonPartitionedTableAnalysisJob)
    (autoAnalyze : ExecCall → Bool) (l : List String)
    (h : ∀ i ∈ l, autoAnalyze (j.idxCall i) = true) :
    j.analyzeIndexesVersion1 autoAnalyze l = (true, l.map j.idxCall) := by
  induction l with
  | nil => rfl
  | cons a rest ih =>
      have ha : autoAnalyze (j.idxCall a) = true := h a (List.mem_cons_self a rest)
      have hrest : ∀ i ∈ rest, autoAnalyze (j.idxCall i) = true :=
        fun i hi => h i (List.mem_cons_of_mem a hi)
      rw [analyzeIndexesVersion1_cons, ih hrest]
      simp [ha]

/-- Helper: the version-1 loop stops at the first failing index: the
successful prefix and the failing index are attempted, nothing after. -/
theorem analyzeIndexesVersion1_first_failure (j : NonPartitionedTableAnalysisJob)
    (autoAnalyze : ExecCall → Bool) (pre : List String) (b : String)
    (post : List String)
    (hpre : ∀ i ∈ pre, autoAnalyze (j.idxCall i) = true)
    (hb : autoAnalyze (j.idxCall b) = false) :
    j.analyzeIndexesVersion1 autoAnalyze (pre ++ b :: post) =
      (false, (pre ++ [b]).map j.idxCall) := by
  induction pre with
  | nil =>
      rw [List.nil_append, analyzeIndexesVersion1_cons, hb]
      simp
  | cons a rest ih =>
      have ha : autoAnalyze (j.idxCall a) = true := hpre a (List.mem_cons_self a rest)
      have hrest : ∀ i ∈ rest, autoAnalyze (j.idxCall i) = true :=
        fun i hi => hpre i (List.mem_cons_of_mem a hi)
      rw [List.cons_append, analyzeIndexesVersion1_cons, ih hrest]
      simp [ha]

/-- Helper: `analyzeIndexes` never hits the out-of-bounds marker. -/
theorem analyzeIndexes_isSome (j : NonPartitionedTableAnalysisJob)
    (sctx : SessionCtx) (autoAnalyze : ExecCall → Bool) :
    (j.analyzeIndexes sctx autoAnalyze).isSome = true := by
  unfold analyzeIndexes
  split
  · rfl
  · split
    · rfl
    · rename_i hlen _
      cases h : j.Indexes[0]? with
      | some firstIndex => simp
      | none =>
          exfalso
          rw [List.getElem?_eq_none_iff] at h
          omega

/-- Helper: in every branch of `Analyze`, the hook-event trace is the
deferred block applied to the final value of the success flag. -/
theorem analyze_events_eq_firedHooks (j : NonPartitionedTableAnalysisJob)
    (acquireSession : Except String SessionCtx) (autoAnalyze : ExecCall → Bool) :
    (j.Analyze acquireSession autoAnalyze).events =
      j.firedHooks (j.Analyze acquireSession autoAnalyze).success :=
  rfl

/-- C7: `getAnalyzeType` returns index-analysis exactly when
`HasNewlyAddedIndex` is true (the newly-added-index list is non-empty)
and table-analysis exactly when the list is empty; being a plain Lean
function of the job record, it is pure with no side effects. -/
theorem getAnalyzeType_pure_spec (j : NonPartitionedTableAnalysisJob) :
    (j.getAnalyzeType = analyzeType.analyzeIndex ↔ j.HasNewlyAddedIndex = true) ∧
    (j.getAnalyzeType = analyzeType.analyzeTable ↔ j.Indexes = []) := by
  cases h : j.Indexes with
  | nil => simp [getAnalyzeType, HasNewlyAddedIndex, h]
  | cons a rest => simp [getAnalyzeType, HasNewlyAddedIndex, h]

/-- C8: `GenSQLForAnalyzeTable` returns the fixed analyze-table template
(the same string for every job, so the names are never concatenated into
it) with exactly the two parameters (schema, table) in order, the
template's `%n` placeholder count matching; `GenSQLForAnalyzeIndex idx`
returns the fixed three-placeholder template with exactly the three
parameters (schema, table, idx) in order. -/
theorem genSQL_templates_spec (j k : NonPartitionedTableAnalysisJob)
    (idx : String) :
    j.GenSQLForAnalyzeTable.2 = [j.TableSchema, j.TableName] ∧
    j.GenSQLForAnalyzeTable.2.length = 2 ∧
    countIdentPlaceholders j.GenSQLForAnalyzeTable.1 =
      j.GenSQLForAnalyzeTable.2.length ∧
    j.GenSQLForAnalyzeTable.1 = k.GenSQLForAnalyzeTable.1 ∧
    (j.GenSQLForAnalyzeIndex idx).2 = [j.TableSchema, j.TableName, idx] ∧
    (j.GenSQLForAnalyzeIndex idx).2.length = 3 ∧
    countIdentPlaceholders (j.GenSQLForAnalyzeIndex idx).1 =
      (j.GenSQLForAnalyzeIndex idx).2.length ∧
    (j.GenSQLForAnalyzeIndex idx).1 = (k.GenSQLForAnalyzeIndex idx).1 := by
  refine ⟨rfl, rfl, ?_, rfl, rfl, rfl, ?_, rfl⟩
  · show countIdentPlaceholders "analyze table %n.%n" = 2
    decide
  · show countIdentPlaceholders "analyze table %n.%n index %n" = 3
    decide

/-- C9: `analyzeIndexes` on an empty newly-added-index list succeeds
immediately with no statement attempted, and on every input the result
is `some`, i.e. the `j.Indexes[0]` read in the version-two branch never
goes out of bounds. -/
theorem analyzeIndexes_empty_guard (j : NonPartitionedTableAnalysisJob)
    (sctx : SessionCtx) (autoAnalyze : ExecCall → Bool) :
    (j.Indexes = [] → j.analyzeIndexes sctx autoAnalyze = some (true, [])) ∧
    (j.analyzeIndexes sctx autoAnalyze).isSome = true := by
  refine ⟨fun h => ?_, analyzeIndexes_isSome j sctx autoAnalyze⟩
  simp [analyzeIndexes, h]

/-- Witness for C9 at a concrete empty-index job. -/
theorem analyzeIndexes_empty_guard_witness :
    jobEmpty.analyzeIndexes ⟨⟨2⟩⟩ runFailB = some (true, []) ∧
    (jobEmpty.analyzeIndexes ⟨⟨2⟩⟩ runFailB).isSome = true := by
  obtain ⟨h1, h2⟩ := analyzeIndexes_empty_guard jobEmpty ⟨⟨2⟩⟩ runFailB
  exact ⟨h1 rfl, h2⟩

/-- C10: a job constructed with given change percentage, table size and
last-analysis duration reports exactly those three indicator fields from
`GetIndicators`, and `GetIndicators` after `SetIndicators v` returns
exactly `v`. -/
theorem indicators_roundtrip
    (schema tableName : String) (tableID : Int) (indexes : List String)
    (tableStatsVer : Int) (changePercentage tableSize : Rat)
    (lastAnalysisDuration : Int)
    (j : NonPartitionedTableAnalysisJob) (v : Indicators) :
    (NewNonPartitionedTableAnalysisJob schema tableName tableID indexes
        tableStatsVer changePercentage tableSize
        lastAnalysisDuration).GetIndicators =
      { ChangePercentage := changePercentage, TableSize := tableSize,
        LastAnalysisDuration := lastAnalysisDuration } ∧
    (j.SetIndicators v).GetIndicators = v :=
  ⟨rfl, rfl⟩

/-- C1: under statistics format version 1, `analyzeIndexes` on a
non-empty index list attempts one statement per index in list order:
if every statement succeeds the outcome is success with all indexes
attempted; if some statement fails, the successful prefix and the first
failing index are the only statements attempted (later indexes never
are) and the outcome is failure. -/
theorem analyzeIndexes_version1_policy (j : NonPartitionedTableAnalysisJob)
    (sctx : SessionCtx) (autoAnalyze : ExecCall → Bool)
    (hne : j.Indexes ≠ [])
    (hver : sctx.GetSessionVars.AnalyzeVersion = 1) :
    ((∀ i ∈ j.Indexes, autoAnalyze (j.idxCall i) = true) →
        j.analyzeIndexes sctx autoAnalyze =
          some (true, j.Indexes.map j.idxCall)) ∧
    (∀ pre b post, j.Indexes = pre ++ b :: post →
        (∀ i ∈ pre, autoAnalyze (j.idxCall i) = true) →
        autoAnalyze (j.idxCall b) = false →
        j.analyzeIndexes sctx autoAnalyze =
          some (false, (pre ++ [b]).map j.idxCall)) := by
  have hlen : ¬ j.Indexes.length = 0 := by
    simpa [List.length_eq_zero] using hne
  have hbranch : j.analyzeIndexes sctx autoAnalyze =
      some (j.analyzeIndexesVersion1 autoAnalyze j.Indexes) := by
    simp [analyzeIndexes, hlen, hver]
  constructor
  · intro hall
    rw [hbranch, analyzeIndexesVersion1_all_ok j autoAnalyze j.Indexes hall]
  · intro pre b post hsplit hpre hb
    rw [hbranch, hsplit,
      analyzeIndexesVersion1_first_failure j autoAnalyze pre b post hpre hb]

/-- Witness for C1 at indexes `[A, B, C]` with `B` failing: exactly the
statements for `A` and `B` are attempted and the outcome is failure. -/
theorem analyzeIndexes_version1_policy_witness :
    jobABC.analyzeIndexes ⟨⟨1⟩⟩ runFailB =
      some (false, [jobABC.idxCall "A", jobABC.idxCall "B"]) := by
  have h := (analyzeIndexes_version1_policy jobABC ⟨⟨1⟩⟩ runFailB
      (by decide) rfl).2 ["A"] "B" ["C"] rfl
      (by
        intro i hi
        rw [List.mem_singleton] at hi
        subst hi
        decide)
      (by decide)
  simpa using h

/-- C2: under statistics format version at least 2, `analyzeIndexes` on
a non-empty index list attempts exactly one statement, the one for the
first index, and the outcome is that statement's outcome regardless of
the remaining indexes. -/
theorem analyzeIndexes_version2_policy (j : NonPartitionedTableAnalysisJob)
    (sctx : SessionCtx) (autoAnalyze : ExecCall → Bool)
    (firstIndex : String) (rest : List String)
    (hidx : j.Indexes = firstIndex :: rest)
    (hver : 2 ≤ sctx.GetSessionVars.AnalyzeVersion) :
    j.analyzeIndexes sctx autoAnalyze =
      some (autoAnalyze (j.idxCall firstIndex), [j.idxCall firstIndex]) := by
  have hlen : ¬ j.Indexes.length = 0 := by
    simp [hidx]
  have hver1 : ¬ sctx.GetSessionVars.AnalyzeVersion = 1 := by
    omega
  simp [analyzeIndexes, hlen, hver1, hidx, idxCall]

/-- Witness for C2 at indexes `[A, B, C]` under version 2: only the
statement for `A` is attempted and its outcome (here success) is the
overall outcome. -/
theorem analyzeIndexes_version2_policy_witness :
    jobABC.analyzeIndexes ⟨⟨2⟩⟩ runFailB =
      some (true, [jobABC.idxCall "A"]) := by
  have h := analyzeIndexes_version2_policy jobABC ⟨⟨2⟩⟩ runFailB
      "A" ["B", "C"] rfl (by decide)
  rw [h]
  decide

/-- C3: with both hooks registered, every `Analyze` call fires exactly
one hook invocation at exit: the success hook when the local success
flag is still true, the failure hook otherwise, in every branch and on
early return. -/
theorem analyze_fires_exactly_one_hook (j : NonPartitionedTableAnalysisJob)
    (acquireSession : Except String SessionCtx) (autoAnalyze : ExecCall → Bool)
    (hs : j.successHook.isSome = true) (hf : j.failureHook.isSome = true) :
    (j.Analyze acquireSession autoAnalyze).events =
      (if (j.Analyze acquireSession autoAnalyze).success then [HookEvent.success]
       else [HookEvent.failure]) ∧
    (j.Analyze acquireSession autoAnalyze).events.length = 1 := by
  obtain ⟨us, hus⟩ := Option.isSome_iff_exists.mp hs
  obtain ⟨uf, huf⟩ := Option.isSome_iff_exists.mp hf
  rw [analyze_events_eq_firedHooks j acquireSession autoAnalyze]
  cases hsucc : (j.Analyze acquireSession autoAnalyze).success <;>
    simp [firedHooks, hus, huf]

/-- Witness for C3 at a concrete failing run with both hooks registered:
exactly the failure hook fires. -/
theorem analyze_fires_exactly_one_hook_witness :
    (jobHooked.Analyze (Except.ok ⟨⟨1⟩⟩) runFailB).events = [HookEvent.failure] := by
  have h := (analyze_fires_exactly_one_hook jobHooked (Except.ok ⟨⟨1⟩⟩)
      runFailB rfl rfl).1
  rw [h]
  decide

/-- C4: an unregistered (nil) hook is never invoked: with no success
hook, a success-path `Analyze` exit invokes no callback; with no failure
hook, a failure-path `Analyze` exit and a negative `IsValidToAnalyze`
invoke no callback. -/
theorem unregistered_hooks_never_invoked (j : NonPartitionedTableAnalysisJob)
    (acquireSession : Except String SessionCtx) (autoAnalyze : ExecCall → Bool)
    (isValidToAnalyzeOracle : String → String → Bool × String) :
    (j.successHook = none → (j.Analyze acquireSession autoAnalyze).success = true →
        (j.Analyze acquireSession autoAnalyze).events = []) ∧
    (j.failureHook = none → (j.Analyze acquireSession autoAnalyze).success = false →
        (j.Analyze acquireSession autoAnalyze).events = []) ∧
    (j.failureHook = none →
        (j.IsValidToAnalyze isValidToAnalyzeOracle).1.1 = false →
        (j.IsValidToAnalyze isValidToAnalyzeOracle).2 = []) := by
  refine ⟨fun hn hsucc => ?_, fun hn hsucc => ?_, fun hn hinvalid => ?_⟩
  · rw [analyze_events_eq_firedHooks j acquireSession autoAnalyze, hsucc]
    simp [firedHooks, hn]
  · rw [analyze_events_eq_firedHooks j acquireSession autoAnalyze, hsucc]
    simp [firedHooks, hn]
  · rcases hr : isValidToAnalyzeOracle j.TableSchema j.TableName with ⟨valid, reason⟩
    cases valid
    · simp [IsValidToAnalyze, hr, hn]
    · simp [IsValidToAnalyze, hr] at hinvalid

/-- Witness for C4 at a concrete hook-free job: a failing `Analyze` run
and a negative validity check both produce no hook invocation. -/
theorem unregistered_hooks_never_invoked_witness :
    (jobABC.Analyze (Except.ok ⟨⟨1⟩⟩) runFailB).events = [] ∧
    (jobABC.IsValidToAnalyze (fun _ _ => (false, "busy"))).2 = [] := by
  constructor
  · exact (unregistered_hooks_never_invoked jobABC (Except.ok ⟨⟨1⟩⟩) runFailB
      (fun _ _ => (false, "busy"))).2.1 rfl (by decide)
  · exact (unregistered_hooks_never_invoked jobABC (Except.ok ⟨⟨1⟩⟩) runFailB
      (fun _ _ => (false, "busy"))).2.2 rfl (by decide)

/-- C5: `Analyze` returns an error only for session acquisition
failures: whenever a session is obtained it returns nil even when the
analyze statements fail, the acquisition error is propagated as is, and
a statement-level failure is reported through the failure hook. -/
theorem analyze_error_only_structural (j : NonPartitionedTableAnalysisJob)
    (sctx : SessionCtx) (autoAnalyze : ExecCall → Bool) (e : String) :
    (j.Analyze (Except.ok sctx) autoAnalyze).err = none ∧
    (j.Analyze (Except.error e) autoAnalyze).err = some e ∧
    ((j.Analyze (Except.ok sctx) autoAnalyze).success = false →
        j.failureHook.isSome = true →
        (j.Analyze (Except.ok sctx) autoAnalyze).events = [HookEvent.failure]) := by
  have hsome := analyzeIndexes_isSome j sctx autoAnalyze
  refine ⟨?_, rfl, fun hsucc hf => ?_⟩
  · unfold Analyze CallWithSCtx
    cases hty : j.getAnalyzeType with
    | analyzeTable => simp only [hty]
    | analyzeIndex =>
        cases hai : j.analyzeIndexes sctx autoAnalyze with
        | some r => simp only [hty, hai]
        | none =>
            rw [hai] at hsome
            simp at hsome
  · rw [analyze_events_eq_firedHooks j (Except.ok sctx) autoAnalyze, hsucc]
    obtain ⟨uf, huf⟩ := Option.isSome_iff_exists.mp hf
    simp [firedHooks, huf]

/-- Witness for C5 at a concrete job whose version-1 run fails on `B`:
error is nil with a session, the acquisition error is propagated
without one, and the failure hook reports the statement failure. -/
theorem analyze_error_only_structural_witness :
    (jobHooked.Analyze (Except.ok ⟨⟨1⟩⟩) runFailB).err = none ∧
    (jobHooked.Analyze (Except.error "no session") runFailB).err =
      some "no session" ∧
    (jobHooked.Analyze (Except.ok ⟨⟨1⟩⟩) runFailB).events = [HookEvent.failure] := by
  obtain ⟨h1, h2, h3⟩ := analyze_error_only_structural jobHooked ⟨⟨1⟩⟩
    runFailB "no session"
  exact ⟨h1, h2, h3 (by decide) rfl⟩

/-- C6: with the failure hook registered, an ineligible oracle verdict
makes `IsValidToAnalyze` fire the failure hook and return false with
the oracle's reason; an eligible verdict returns true with an empty
reason and fires no hook. -/
theorem isValidToAnalyze_hook_spec (j : NonPartitionedTableAnalysisJob)
    (isValidToAnalyzeOracle : String → String → Bool × String)
    (reason : String) (hf : j.failureHook.isSome = true) :
    (isValidToAnalyzeOracle j.TableSchema j.TableName = (false, reason) →
        j.IsValidToAnalyze isValidToAnalyzeOracle =
          ((false, reason), [HookEvent.failure])) ∧
    (∀ r : String, isValidToAnalyzeOracle j.TableSchema j.TableName = (true, r) →
        j.IsValidToAnalyze isValidToAnalyzeOracle = ((true, ""), [])) := by
  obtain ⟨uf, huf⟩ := Option.isSome_iff_exists.mp hf
  constructor
  · intro hr
    simp [IsValidToAnalyze, hr, huf]
  · intro r hr
    simp [IsValidToAnalyze, hr]

/-- Witness for C6 at a concrete job with a registered failure hook and
an oracle reporting ineligibility: the hook fires and the reason is
passed through. -/
theorem isValidToAnalyze_hook_spec_witness :
    jobHooked.IsValidToAnalyze (fun _ _ => (false, "busy")) =
      ((false, "busy"), [HookEvent.failure]) :=
  (isValidToAnalyze_hook_spec jobHooked (fun _ _ => (false, "busy")) "busy" rfl).1 rfl

end PriorityQueue
